import Mathlib

/-
Verification of the transport and consistency layer of the go-jamfpro-api
client library.  The Go sources are shallowly embedded into Lean:

* `utils.go`          — `AreGroupsEquivalent`, `AreComputerRecordsEquivalent`
* `computers.go`      — `ComputersServiceOp.Create/Update/Delete` reconciliation
* `computergroups.go` — `ComputerGroupsServiceOp.Create/Update` reconciliation,
                        `Client.refreshAuthToken`, `Client.NewRequest`,
                        `Client.Do`, `CheckResponse`
* `client.go`         — `CategoriesServiceOp.Update` argument validation

Go slices become `List`, Go pointers that may be nil become `Option`, a Go
panic (out-of-range slice index, nil pointer dereference) becomes the `none`
branch of an `Option`-valued embedding, and the unbounded polling loops are
run on an explicit fuel supply so that a finite prefix of their behaviour is
a total function of the fetch trace.
-/

namespace JamfPro

/-! ## Data model (computers.go, computergroups.go) -/

/-- Embeds the Go struct `ComputerGeneral` from computers.go. -/
structure ComputerGeneral where
  id : Int
  name : String
  assetTag : String
  platform : String
  serialNumber : String
  udid : String
deriving DecidableEq, Repr

/-- Embeds the Go struct `Computer` from computers.go.  Go compares two
`Computer` values with `!=`, which is field-wise structural equality, so the
derived `DecidableEq` matches the source semantics. -/
structure Computer where
  id : Int
  name : String
  general : ComputerGeneral
  serialNumber : String
  udid : String
deriving DecidableEq, Repr

/-- Embeds the Go struct `ComputerGroupCriteria` from computergroups.go. -/
structure ComputerGroupCriteria where
  name : String
  priority : Int
  andOr : String
  searchType : String
  value : String
  openingParen : Bool
  closingParen : Bool
deriving DecidableEq, Repr

/-- Embeds the Go struct `ComputerGroup` from computergroups.go. -/
structure ComputerGroup where
  id : Int
  name : String
  isSmart : Bool
  criteria : List ComputerGroupCriteria
  computers : List Computer
deriving DecidableEq, Repr

/-! ## Equivalence predicates (utils.go) -/

/-- Embeds the positional element-comparison loops of `AreGroupsEquivalent`
(utils.go lines 14-23): `for i, v := range planned` returns false at the
first index where `v` differs from `actual[i]`.  The loop walks the planned
list positionally; indexing `actual[i]` out of range is a Go panic,
embedded as `none`.  The index can only run out after all earlier positions
compared equal, which the recursion reproduces. -/
def cmpElems {α : Type} [DecidableEq α] : List α → List α → Option Bool
  | [], _ => some true
  | _ :: _, [] => none
  | x :: xs, y :: ys => if x ≠ y then some false else cmpElems xs ys

/-- Embeds `AreGroupsEquivalent` (utils.go lines 3-26): nil actual is not
equivalent; then name, id, the `Computers` list and the `Criteria` list are
compared in source order.  `none` is the panic branch (out-of-range index on
the actual group's list). -/
def AreGroupsEquivalent (planned : ComputerGroup) (actual : Option ComputerGroup) :
    Option Bool :=
  match actual with
  | none => some false
  | some a =>
    if planned.name ≠ a.name then some false
    else if planned.id ≠ a.id then some false
    else
      match cmpElems planned.computers a.computers with
      | none => none
      | some false => some false
      | some true =>
        match cmpElems planned.criteria a.criteria with
        | none => none
        | some b => some b

/-- Embeds `AreComputerRecordsEquivalent` (utils.go lines 28-43): nil actual
is not equivalent; then name, id and serial number are compared.  This
predicate indexes nothing, so it is total. -/
def AreComputerRecordsEquivalent (planned : Computer) (actual : Option Computer) :
    Bool :=
  match actual with
  | none => false
  | some a =>
    if planned.name ≠ a.name then false
    else if planned.id ≠ a.id then false
    else if planned.serialNumber ≠ a.serialNumber then false
    else true

/-! ### Lemmas about the positional comparison -/

theorem cmpElems_self {α : Type} [DecidableEq α] (xs : List α) :
    cmpElems xs xs = some true := by
  induction xs with
  | nil => rfl
  | cons x xs ih => simp [cmpElems, ih]

theorem cmpElems_of_length_eq {α : Type} [DecidableEq α] :
    ∀ (xs ys : List α), xs.length = ys.length →
      cmpElems xs ys = some (decide (xs = ys))
  | [], [], _ => by simp [cmpElems]
  | [], _ :: _, h => by simp at h
  | _ :: _, [], h => by simp at h
  | x :: xs, y :: ys, h => by
    by_cases hxy : x = y
    · subst hxy
      have := cmpElems_of_length_eq xs ys (by simpa using h)
      simp [cmpElems, this]
    · simp [cmpElems, hxy]

theorem cmpElems_eq_some_true_iff {α : Type} [DecidableEq α] :
    ∀ (xs ys : List α), cmpElems xs ys = some true ↔ xs <+: ys
  | [], ys => by
    constructor
    · intro _; exact ⟨ys, rfl⟩
    · intro _; rfl
  | x :: xs, [] => by
    constructor
    · intro h; simp [cmpElems] at h
    · rintro ⟨t, ht⟩; simp at ht
  | x :: xs, y :: ys => by
    by_cases hxy : x = y
    · subst hxy
      rw [show cmpElems (x :: xs) (x :: ys) = cmpElems xs ys by simp [cmpElems],
        cmpElems_eq_some_true_iff xs ys]
      constructor
      · rintro ⟨t, rfl⟩; exact ⟨t, rfl⟩
      · rintro ⟨t, ht⟩
        refine ⟨t, ?_⟩
        simpa using ht
    · simp only [cmpElems, if_pos hxy]
      constructor
      · intro h; simp at h
      · rintro ⟨t, ht⟩
        simp only [List.cons_append, List.cons.injEq] at ht
        exact absurd ht.1 hxy

theorem cmpElems_eq_none_iff {α : Type} [DecidableEq α] :
    ∀ (xs ys : List α), cmpElems xs ys = none ↔ (ys <+: xs ∧ ys ≠ xs)
  | [], ys => by
    constructor
    · intro h; simp [cmpElems] at h
    · rintro ⟨⟨t, ht⟩, hne⟩
      exact absurd (List.append_eq_nil.mp ht).1 hne
  | x :: xs, [] => by
    constructor
    · intro _; exact ⟨⟨x :: xs, rfl⟩, by simp⟩
    · intro _; rfl
  | x :: xs, y :: ys => by
    by_cases hxy : x = y
    · subst hxy
      rw [show cmpElems (x :: xs) (x :: ys) = cmpElems xs ys by simp [cmpElems],
        cmpElems_eq_none_iff xs ys]
      constructor
      · rintro ⟨⟨t, rfl⟩, hne⟩
        exact ⟨⟨t, rfl⟩, by simpa using hne⟩
      · rintro ⟨⟨t, ht⟩, hne⟩
        simp only [List.cons_append, List.cons.injEq] at ht
        exact ⟨⟨t, ht.2⟩, by simpa using hne ∘ fun h => by rw [h]⟩
    · simp only [cmpElems, if_pos hxy]
      constructor
      · intro h; simp at h
      · rintro ⟨⟨t, ht⟩, _⟩
        simp only [List.cons_append, List.cons.injEq] at ht
        exact absurd ht.1.symm hxy

/-! ## Create/update reconciliation poller
(computergroups.go lines 97-104 and 138-147, computers.go lines 176-185
and 209-218)

The Go loop is

  updated, resp, err := GetByID(id)
  interval := 1
  for resp.StatusCode != 200 && !equivalent(&intended, updated) {
      time.Sleep(interval seconds)
      updated, resp, err = GetByID(id)
      interval = interval * 2
  }

The fetch trace is a function from the 0-based call index to the pair of
status code and observed resource.  Go's `&&` short-circuits, so the
equivalence predicate is evaluated only when the status differs from 200;
`pollExit` reproduces that order.  The source loop has no iteration bound,
so the embedding runs on a fuel supply counting how many further loop
iterations may still execute. -/

/-- Exit test of one iteration of the create/update reconciliation loop:
the Go loop continues while `resp.StatusCode != 200 && !equivalent(...)`,
so it exits as soon as the status is 200 (the predicate is then not even
evaluated) or the predicate holds.  `none` is the panic branch of the
predicate. -/
def pollExit {α : Type} (equivOf : Option α → Option Bool)
    (r : Nat × Option α) : Option Bool :=
  if r.1 = 200 then some true
  else
    match equivOf r.2 with
    | none => none
    | some e => some e

/-- Outcome of running the reconciliation loop on a fuel supply:
`done calls sleeps` — the loop exited after `calls` fetches, having slept
the listed durations (in seconds, in order) between them; `panicked calls` —
the equivalence predicate hit its out-of-range panic on fetch number
`calls`; `running` — the fuel was exhausted with the loop still going. -/
inductive PollOutcome where
  | done (calls : Nat) (sleeps : List Nat)
  | panicked (calls : Nat)
  | running
deriving DecidableEq, Repr

/-- One-loop embedding shared by the four create/update reconciliation
loops, which are textually identical up to the equivalence predicate.
`idx` is the 0-based index of the fetch whose result is currently under
test, `interval` the current sleep duration, `sleeps` the accumulated
sleeps in reverse order. -/
def reconPollAux {α : Type} (equivOf : Option α → Option Bool)
    (fetch : Nat → Nat × Option α) :
    Nat → Nat → Nat → List Nat → PollOutcome
  | 0, idx, _, sleeps =>
    match pollExit equivOf (fetch idx) with
    | none => PollOutcome.panicked (idx + 1)
    | some true => PollOutcome.done (idx + 1) sleeps.reverse
    | some false => PollOutcome.running
  | Nat.succ f, idx, interval, sleeps =>
    match pollExit equivOf (fetch idx) with
    | none => PollOutcome.panicked (idx + 1)
    | some true => PollOutcome.done (idx + 1) sleeps.reverse
    | some false =>
      reconPollAux equivOf fetch f (idx + 1) (interval * 2) (interval :: sleeps)

/-- The reconciliation poller of `ComputerGroupsServiceOp.Create` (lines
97-104) and `.Update` (lines 138-147): first fetch already done, interval
starts at 1 second. -/
def groupReconPoll (intended : ComputerGroup)
    (fetch : Nat → Nat × Option ComputerGroup) (fuel : Nat) : PollOutcome :=
  reconPollAux (AreGroupsEquivalent intended) fetch fuel 0 1 []

/-- The reconciliation poller of `ComputersServiceOp.Create` (lines 176-185)
and `.Update` (lines 209-218); `AreComputerRecordsEquivalent` is total. -/
def computerReconPoll (intended : Computer)
    (fetch : Nat → Nat × Option Computer) (fuel : Nat) : PollOutcome :=
  reconPollAux (fun o => some (AreComputerRecordsEquivalent intended o)) fetch fuel 0 1 []

theorem pollExit_eq_some_true_iff {α : Type} (equivOf : Option α → Option Bool)
    (r : Nat × Option α) :
    pollExit equivOf r = some true ↔ (r.1 = 200 ∨ equivOf r.2 = some true) := by
  unfold pollExit
  by_cases h : r.1 = 200
  · simp [h]
  · simp only [if_neg h]
    cases he : equivOf r.2 with
    | none => simp [h, he]
    | some e => cases e <;> simp [h, he]

theorem pollExit_eq_some_false_iff {α : Type} (equivOf : Option α → Option Bool)
    (r : Nat × Option α) :
    pollExit equivOf r = some false ↔ (r.1 ≠ 200 ∧ equivOf r.2 = some false) := by
  unfold pollExit
  by_cases h : r.1 = 200
  · simp [h]
  · simp only [if_neg h]
    cases he : equivOf r.2 with
    | none => simp [h, he]
    | some e => cases e <;> simp [h, he]

theorem reconPollAux_done_of {α : Type} (equivOf : Option α → Option Bool)
    (fetch : Nat → Nat × Option α) :
    ∀ (m fuel idx interval : Nat) (sleeps : List Nat), m ≤ fuel →
      (∀ j, j < m → pollExit equivOf (fetch (idx + j)) = some false) →
      pollExit equivOf (fetch (idx + m)) = some true →
      reconPollAux equivOf fetch fuel idx interval sleeps =
        PollOutcome.done (idx + m + 1)
          (sleeps.reverse ++ (List.range m).map (fun k => interval * 2 ^ k)) := by
  intro m
  induction m with
  | zero =>
    intro fuel idx interval sleeps _ _ hexit
    rw [Nat.add_zero] at hexit
    cases fuel <;> simp [reconPollAux, hexit]
  | succ m ih =>
    intro fuel idx interval sleeps hfuel hbefore hexit
    obtain ⟨f, rfl⟩ : ∃ f, fuel = f + 1 :=
      ⟨fuel - 1, by omega⟩
    have h0 : pollExit equivOf (fetch idx) = some false := by
      simpa using hbefore 0 (Nat.succ_pos m)
    have step : reconPollAux equivOf fetch (f + 1) idx interval sleeps =
        reconPollAux equivOf fetch f (idx + 1) (interval * 2) (interval :: sleeps) := by
      simp [reconPollAux, h0]
    rw [step, ih f (idx + 1) (interval * 2) (interval :: sleeps) (by omega)
      (fun j hj => by
        have := hbefore (j + 1) (by omega)
        simpa [Nat.add_assoc, Nat.add_comm 1 j] using this)
      (by
        have : idx + 1 + m = idx + (m + 1) := by omega
        rw [this]; exact hexit)]
    have harith : idx + 1 + m + 1 = idx + (m + 1) + 1 := by omega
    have hfun : (fun k => interval * 2 * 2 ^ k) = (fun k => interval * 2 ^ (k + 1)) := by
      funext k; ring
    have hlist : (interval :: sleeps).reverse ++
        (List.range m).map (fun k => interval * 2 * 2 ^ k) =
        sleeps.reverse ++ (List.range (m + 1)).map (fun k => interval * 2 ^ k) := by
      rw [List.reverse_cons, hfun, List.range_succ_eq_map, List.map_cons,
        List.map_map, List.append_assoc, List.singleton_append]
      simp [Function.comp]
    rw [harith, hlist]

theorem reconPollAux_done_inv {α : Type} (equivOf : Option α → Option Bool)
    (fetch : Nat → Nat × Option α) :
    ∀ (fuel idx interval : Nat) (sleeps : List Nat) (n : Nat) (s : List Nat),
      reconPollAux equivOf fetch fuel idx interval sleeps = PollOutcome.done n s →
      ∃ m, n = idx + m + 1 ∧
        (∀ j, j < m → pollExit equivOf (fetch (idx + j)) = some false) ∧
        pollExit equivOf (fetch (idx + m)) = some true := by
  intro fuel
  induction fuel with
  | zero =>
    intro idx interval sleeps n s h
    cases he : pollExit equivOf (fetch idx) with
    | none => simp [reconPollAux, he] at h
    | some e =>
      cases e with
      | false => simp [reconPollAux, he] at h
      | true =>
        simp only [reconPollAux, he] at h
        refine ⟨0, ?_, by omega, by simpa using he⟩
        cases h; rfl
  | succ f ih =>
    intro idx interval sleeps n s h
    cases he : pollExit equivOf (fetch idx) with
    | none => simp [reconPollAux, he] at h
    | some e =>
      cases e with
      | true =>
        simp only [reconPollAux, he] at h
        refine ⟨0, ?_, by omega, by simpa using he⟩
        cases h; rfl
      | false =>
        simp only [reconPollAux, he] at h
        obtain ⟨m, hm, hbefore, hexit⟩ :=
          ih (idx + 1) (interval * 2) (interval :: sleeps) n s h
        refine ⟨m + 1, by omega, ?_, ?_⟩
        · intro j hj
          cases j with
          | zero => simpa using he
          | succ j =>
            have := hbefore j (by omega)
            simpa [Nat.add_assoc, Nat.add_comm 1 j] using this
        · have : idx + (m + 1) = idx + 1 + m := by omega
          rw [this]; exact hexit

/-! ## Delete reconciliation (computers.go lines 221-248)

The Go code after the deletion call is

  _, resp, err := GetByID(i)          // fetch number 1, index 0
  interval := 1
  limit := 5
  for resp.StatusCode != 404 && limit > 0 {
      time.Sleep(interval seconds)
      _, resp, err = GetByID(i)       // fetch at index = current count
      interval = interval * 2
      limit = limit - 1
  }
  if limit == 0 {
      return nil, fmt.Errorf("failed to delete computer with id %d after 5 attempts", i)
  }

The fetch trace maps the 0-based call index to the returned status code. -/

/-- Embeds the bounded retry loop of `ComputersServiceOp.Delete`: `status`
is the status of the most recent fetch, `calls` the number of fetches made
so far (also the 0-based index of the next fetch).  Returns the final value
of `limit` and the total number of fetches.  When `limit` reaches 0 the Go
loop exits regardless of the status, and the caller then tests `limit == 0`. -/
def computersDeleteLoop (fetch : Nat → Nat) : Nat → Nat → Nat → Nat × Nat
  | 0, _, calls => (0, calls)
  | Nat.succ l, status, calls =>
    if status = 404 then (Nat.succ l, calls)
    else computersDeleteLoop fetch l (fetch calls) (calls + 1)

/-- Embeds the post-deletion reconciliation of `ComputersServiceOp.Delete`
(lines 234-245): one initial fetch, then the bounded loop with `limit = 5`;
a final `limit` of 0 yields the dedicated exhaustion error naming the id
and the attempt count.  The second component is the number of fetches. -/
def ComputersDeleteRecon (i : Int) (fetch : Nat → Nat) :
    Except String Unit × Nat :=
  let r := computersDeleteLoop fetch 5 (fetch 0) 1
  if r.1 = 0 then
    (Except.error ("failed to delete computer with id " ++ toString i ++
      " after 5 attempts"), r.2)
  else (Except.ok (), r.2)

theorem computersDeleteLoop_never (fetch : Nat → Nat)
    (h : ∀ k, fetch k ≠ 404) :
    ∀ (limit s calls : Nat), s ≠ 404 →
      computersDeleteLoop fetch limit s calls = (0, calls + limit) := by
  intro limit
  induction limit with
  | zero => intro s calls _; rfl
  | succ l ih =>
    intro s calls hs
    rw [show computersDeleteLoop fetch (Nat.succ l) s calls =
        computersDeleteLoop fetch l (fetch calls) (calls + 1) by
      simp [computersDeleteLoop, hs]]
    rw [ih (fetch calls) (calls + 1) (h calls)]
    exact congrArg (Prod.mk 0) (by omega)

theorem computersDeleteLoop_first_hit (fetch : Nat → Nat) :
    ∀ (m limit s calls : Nat), m < limit → s ≠ 404 →
      (∀ j, j < m → fetch (calls + j) ≠ 404) →
      fetch (calls + m) = 404 →
      computersDeleteLoop fetch limit s calls =
        (limit - (m + 1), calls + m + 1) := by
  intro m
  induction m with
  | zero =>
    intro limit s calls hlt hs _ hhit
    obtain ⟨l, rfl⟩ : ∃ l, limit = l + 1 := ⟨limit - 1, by omega⟩
    rw [show computersDeleteLoop fetch (l + 1) s calls =
        computersDeleteLoop fetch l (fetch calls) (calls + 1) by
      simp [computersDeleteLoop, hs]]
    rw [Nat.add_zero] at hhit
    cases l with
    | zero => simp [computersDeleteLoop]
    | succ l =>
      rw [show computersDeleteLoop fetch (Nat.succ l) (fetch calls) (calls + 1) =
          (Nat.succ l, calls + 1) by simp [computersDeleteLoop, hhit]]
      exact congrArg₂ Prod.mk (by omega) (by omega)
  | succ m ih =>
    intro limit s calls hlt hs hbefore hhit
    obtain ⟨l, rfl⟩ : ∃ l, limit = l + 1 := ⟨limit - 1, by omega⟩
    rw [show computersDeleteLoop fetch (l + 1) s calls =
        computersDeleteLoop fetch l (fetch calls) (calls + 1) by
      simp [computersDeleteLoop, hs]]
    rw [ih l (fetch calls) (calls + 1) (by omega)
      (hbefore 0 (Nat.succ_pos m))
      (fun j hj => by
        have := hbefore (j + 1) (by omega)
        simpa [Nat.add_assoc, Nat.add_comm 1 j] using this)
      (by
        have : calls + 1 + m = calls + (m + 1) := by omega
        rw [this]; exact hhit)]
    exact congrArg₂ Prod.mk (by omega) (by omega)

/-! ## Session, credential refresh and request building
(computergroups.go lines 399-421, 496-543, 545-608)

Time is an abstract `Int` timestamp; `time.Now()` is a parameter `now`.
The network interaction of `refreshAuthToken` is a parameter too: `none`
stands for a transport error from the identity endpoint, and otherwise the
response is the list of cookies carried on it together with the decode
result of its body (`none` = `json.Decode` failed). -/

/-- The session fields of the Go `Client` struct that the transport layer
reads and writes: the bearer token and its expiry (nil-able pointers in Go,
hence `Option`), and the two sticky-affinity values, whose Go zero value is
the empty string. -/
structure ClientState where
  token : Option String
  tokenExpiration : Option Int
  jamfProIngress : String
  apBalanceId : String
deriving DecidableEq, Repr

/-- Decoded identity-endpoint body: the fields of Go's `responseOAuthToken`
that `refreshAuthToken` reads, both nil-able. -/
structure OAuthDecoded where
  accessToken : Option String
  expiresIn : Option Int
deriving DecidableEq, Repr

/-- Embeds the cookie-inspection loop of `refreshAuthToken` (lines 524-532):
walk the response cookies in order; on the first cookie named jpro-ingress
while that field is still empty, record it and stop; likewise for
APBALANCEID; otherwise keep walking.  Note the guard tests whether the
session field is empty, not whether the cookie value is. -/
def captureCookies : List (String × String) → ClientState → ClientState
  | [], st => st
  | (n, v) :: rest, st =>
    if n = "jpro-ingress" ∧ st.jamfProIngress = "" then
      { st with jamfProIngress := v }
    else if n = "APBALANCEID" ∧ st.apBalanceId = "" then
      { st with apBalanceId := v }
    else captureCookies rest st

/-- Embeds the cookie attachment of `NewRequest` (lines 597-603): attach a
jpro-ingress cookie when that field is non-empty, else an APBALANCEID cookie
when that one is, else nothing. -/
def requestCookie (st : ClientState) : Option (String × String) :=
  if st.jamfProIngress ≠ "" then some ("jpro-ingress", st.jamfProIngress)
  else if st.apBalanceId ≠ "" then some ("APBALANCEID", st.apBalanceId)
  else none

/-- Embeds the part of `refreshAuthToken` after the fast path (lines
511-542), entered with `c.token` already cleared.  A transport error is
returned unchanged (`true` in the second component means an error was
returned).  A body-decode failure is swallowed: the function returns with no
error and the token still unset.  On a successful decode the token is
whatever `access_token` held, and dereferencing a missing `expires_in`
is a nil-pointer panic, embedded as `none`. -/
def refreshFetch (now : Int) (st : ClientState)
    (transport : Option (List (String × String) × Option OAuthDecoded)) :
    Option (ClientState × Bool) :=
  match transport with
  | none => some (st, true)
  | some (cookies, decoded) =>
    let st2 := captureCookies cookies st
    match decoded with
    | none => some (st2, false)
    | some d =>
      match d.expiresIn with
      | none => none
      | some e =>
        some ({ st2 with
                token := d.accessToken
                tokenExpiration := some (now + e) }, false)

/-- Embeds `Client.refreshAuthToken` (lines 496-543): if a stored expiry
exists and is strictly after `now`, return immediately with no change and
no error; otherwise clear the token and run the identity-endpoint exchange. -/
def refreshAuthToken (now : Int) (st : ClientState)
    (transport : Option (List (String × String) × Option OAuthDecoded)) :
    Option (ClientState × Bool) :=
  match st.tokenExpiration with
  | some e =>
    if e > now then some (st, false)
    else refreshFetch now { st with token := none } transport
  | none => refreshFetch now { st with token := none } transport

/-- The observable parts of the `http.Request` that `NewRequest` builds. -/
structure RequestModel where
  method : String
  path : String
  hasBody : Bool
  contentTypeHeader : Option String
  accept : Option String
  cookie : Option (String × String)
  authorization : String
deriving DecidableEq, Repr

/-- Embeds `Client.NewRequest` (computergroups.go lines 545-608), with the
body serialisers abstracted to the flag `hasBody` (encoding success is
assumed; encoding failure aborts before any of the behaviour modelled
here).  Safe methods carry no body and no Content-Type header; other
methods normalise an unrecognised content type to application/json when a
body is present and always set the Content-Type header.  Accept is set
unless the resolved content type is XML, the affinity cookie is attached
per `requestCookie`, and the bearer token is dereferenced unconditionally —
`none` is the nil-pointer panic when no token is stored.  No credential
refresh happens anywhere on this path. -/
def newRequest (st : ClientState) (method path contentType : String)
    (hasBody : Bool) : Option RequestModel :=
  let isSafe := method = "GET" ∨ method = "HEAD" ∨ method = "OPTIONS"
  let ct :=
    if hasBody ∧ ¬isSafe then
      if contentType = "application/xml" ∨
         contentType = "application/x-www-form-urlencoded" ∨
         contentType = "application/json" then contentType
      else "application/json"
    else contentType
  match st.token with
  | none => none
  | some t =>
    some { method := method
           path := path
           hasBody := hasBody ∧ ¬isSafe
           contentTypeHeader := if isSafe then none else some ct
           accept := if ct ≠ "application/xml" then some "application/json" else none
           cookie := requestCookie st
           authorization := "Bearer " ++ t }

theorem captureCookies_token (cookies : List (String × String)) :
    ∀ st : ClientState, (captureCookies cookies st).token = st.token := by
  induction cookies with
  | nil => intro st; rfl
  | cons c rest ih =>
    intro st
    obtain ⟨n, v⟩ := c
    by_cases h1 : n = "jpro-ingress" ∧ st.jamfProIngress = ""
    · simp [captureCookies, h1]
    · by_cases h2 : n = "APBALANCEID" ∧ st.apBalanceId = ""
      · simp [captureCookies, h1, h2]
      · simp [captureCookies, h1, h2, ih st]

theorem captureCookies_ingress_of_ne (cookies : List (String × String)) :
    ∀ st : ClientState, st.jamfProIngress ≠ "" →
      (captureCookies cookies st).jamfProIngress = st.jamfProIngress := by
  induction cookies with
  | nil => intro st _; rfl
  | cons c rest ih =>
    intro st h
    obtain ⟨n, v⟩ := c
    have h1 : ¬(n = "jpro-ingress" ∧ st.jamfProIngress = "") := fun hc => h hc.2
    by_cases h2 : n = "APBALANCEID" ∧ st.apBalanceId = ""
    · simp [captureCookies, h1, h2]
    · simp [captureCookies, h1, h2, ih st h]

theorem captureCookies_balance_of_ne (cookies : List (String × String)) :
    ∀ st : ClientState, st.apBalanceId ≠ "" →
      (captureCookies cookies st).apBalanceId = st.apBalanceId := by
  induction cookies with
  | nil => intro st _; rfl
  | cons c rest ih =>
    intro st h
    obtain ⟨n, v⟩ := c
    have h2 : ¬(n = "APBALANCEID" ∧ st.apBalanceId = "") := fun hc => h hc.2
    by_cases h1 : n = "jpro-ingress" ∧ st.jamfProIngress = ""
    · simp [captureCookies, h1]
    · simp [captureCookies, h1, h2, ih st h]

theorem requestCookie_of_ingress_eq (st st' : ClientState)
    (h : st'.jamfProIngress = st.jamfProIngress) (hne : st.jamfProIngress ≠ "") :
    requestCookie st' = requestCookie st := by
  unfold requestCookie
  rw [h]
  simp [hne]

/-! ## Dispatcher (computergroups.go lines 620-702) -/

/-- Transport response as the dispatcher sees it: a status code and the
body text, `none` when the body is absent or unreadable (a `ReadAll`
error leaves the Go error message empty just as an empty body does). -/
structure HttpResponse where
  statusCode : Nat
  body : Option String
deriving DecidableEq, Repr

/-- The fields of Go's `ErrorResponse` that `CheckResponse` fills in: the
status of the offending response and the message taken from its raw body. -/
structure ErrorEnvelope where
  statusCode : Nat
  message : String
deriving DecidableEq, Repr

/-- Embeds `CheckResponse` (lines 690-702): status 200-299 is success
(no error); any other status yields an envelope whose message is the raw
body text when the body was read without error and is non-empty, and the
empty string otherwise. -/
def CheckResponse (r : HttpResponse) : Option ErrorEnvelope :=
  if 200 ≤ r.statusCode ∧ r.statusCode ≤ 299 then none
  else
    some { statusCode := r.statusCode
           message :=
             match r.body with
             | some data => if 0 < data.length then data else ""
             | none => "" }

/-- Result of `Client.Do` as seen by a caller: an HTTP-level error from
`CheckResponse`, a body-decode failure, or success carrying the decoded
destination (`none` when no destination was supplied). -/
inductive DoResult (α : Type) where
  | httpError (e : ErrorEnvelope)
  | decodeError
  | ok (v : Option α)
deriving DecidableEq, Repr

/-- Embeds the classification-then-decode order of `Client.Do` (lines
643-667): `CheckResponse` runs first and a non-2xx status returns its
envelope with no decoding attempted; only on success is the destination
decoder (when one was supplied) applied to the body. -/
def clientDo {α : Type} (resp : HttpResponse)
    (decode : Option (String → Option α)) : DoResult α :=
  match CheckResponse resp with
  | some e => DoResult.httpError e
  | none =>
    match decode with
    | none => DoResult.ok none
    | some d =>
      match d (resp.body.getD "") with
      | none => DoResult.decodeError
      | some v => DoResult.ok (some v)

theorem checkResponse_message_eq (b : Option String) :
    (match b with
     | some data => if 0 < data.length then data else ""
     | none => "") = b.getD "" := by
  cases b with
  | none => rfl
  | some data =>
    by_cases h : 0 < data.length
    · simp [h]
    · have hz : data.length = 0 := by omega
      obtain ⟨l⟩ := data
      have : l = [] := List.length_eq_zero.mp (by simpa [String.length] using hz)
      subst this
      simp [h]

/-! ## Argument validation of the public mutation operations
(computers.go lines 159-196, client.go lines 423-453,
computergroups.go lines 70-113)

`NewArgError` lives in a file that is not part of the sources here; only
its call sites are.  What matters to the claims is that it produces an
argument error naming a field and a reason, before any request is built. -/

/-- What a public mutation operation does before touching the network:
either it fails fast with the argument error produced by `NewArgError`
(field name and reason as at the Go call site), or it proceeds to build a
request for the given path. -/
inductive MutationPre where
  | argError (field reason : String)
  | proceeds (path : String)
deriving DecidableEq, Repr

/-- Embeds the pre-network phase of `ComputersServiceOp.Update` (computers.go
lines 190-196): nil request fails, then the zero identifier fails. -/
def computersUpdatePre (i : Int) (hasRequest : Bool) : MutationPre :=
  if ¬hasRequest then MutationPre.argError "updateRequest" "cannot be nil"
  else if i = 0 then MutationPre.argError "computer ID" "cannot be 0"
  else MutationPre.proceeds ("JSSResource/computers/id/" ++ toString i)

/-- Embeds the pre-network phase of `CategoriesServiceOp.Update` (client.go
lines 447-453): nil request fails, then the zero identifier fails. -/
def categoriesUpdatePre (i : Int) (hasRequest : Bool) : MutationPre :=
  if ¬hasRequest then MutationPre.argError "updateRequest" "cannot be nil"
  else if i = 0 then MutationPre.argError "category ID" "cannot be 0"
  else MutationPre.proceeds ("uapi/v1/categories/" ++ toString i)

/-- Embeds the pre-network phase of `ComputerGroupsServiceOp.Update`
(computergroups.go lines 109-113): only the nil-request check is present —
there is no test of the identifier. -/
def computerGroupsUpdatePre (i : Int) (hasRequest : Bool) : MutationPre :=
  if ¬hasRequest then MutationPre.argError "createRequest" "cannot be nil"
  else MutationPre.proceeds ("JSSResource/computergroups/id/" ++ toString i)

/-- Embeds the pre-network phase of `ComputersServiceOp.Create` (computers.go
lines 159-163): nil request fails. -/
def computersCreatePre (hasRequest : Bool) : MutationPre :=
  if ¬hasRequest then MutationPre.argError "createRequest" "cannot be nil"
  else MutationPre.proceeds "JSSResource/computers/id/0"

/-- Embeds the pre-network phase of `ComputerGroupsServiceOp.Create`
(computergroups.go lines 70-80): nil request fails; the smart-group
criteria test compares `len(request.Criteria) < 0`, which no length
satisfies, so it never fires and is omitted. -/
def computerGroupsCreatePre (hasRequest : Bool) : MutationPre :=
  if ¬hasRequest then MutationPre.argError "createRequest" "cannot be nil"
  else MutationPre.proceeds "JSSResource/computergroups/id/0"

/-- Embeds the pre-network phase of `CategoriesServiceOp.Create` (client.go
lines 423-428): nil request fails. -/
def categoriesCreatePre (hasRequest : Bool) : MutationPre :=
  if ¬hasRequest then MutationPre.argError "createRequest" "cannot be nil"
  else MutationPre.proceeds "uapi/v1/categories"

/-! ## Concrete example values used by witnesses and counterexamples -/

/-- A sample `ComputerGeneral` record. -/
def exGeneral : ComputerGeneral :=
  { id := 0, name := "", assetTag := "", platform := ""
    serialNumber := "", udid := "" }

/-- A sample computer record. -/
def exComputer1 : Computer :=
  { id := 1, name := "mac-1", general := exGeneral
    serialNumber := "S1", udid := "U1" }

/-- A second, distinct sample computer record. -/
def exComputer2 : Computer :=
  { id := 2, name := "mac-2", general := exGeneral
    serialNumber := "S2", udid := "U2" }

/-- Group holding `exComputer1` then `exComputer2`. -/
def exGroup12 : ComputerGroup :=
  { id := 7, name := "g", isSmart := false, criteria := []
    computers := [exComputer1, exComputer2] }

/-- Same membership as `exGroup12` but in the opposite order. -/
def exGroup21 : ComputerGroup :=
  { id := 7, name := "g", isSmart := false, criteria := []
    computers := [exComputer2, exComputer1] }

/-- Group with no computers. -/
def exGroupNil : ComputerGroup :=
  { id := 7, name := "g", isSmart := false, criteria := [], computers := [] }

/-- Group holding only `exComputer1`. -/
def exGroup1 : ComputerGroup :=
  { id := 7, name := "g", isSmart := false, criteria := []
    computers := [exComputer1] }

/-- Group holding only `exComputer2`. -/
def exGroup2 : ComputerGroup :=
  { id := 7, name := "g", isSmart := false, criteria := []
    computers := [exComputer2] }

theorem AreGroupsEquivalent_some (p a : ComputerGroup) :
    AreGroupsEquivalent p (some a) =
      (if p.name ≠ a.name then some false
       else if p.id ≠ a.id then some false
       else
         match cmpElems p.computers a.computers with
         | none => none
         | some false => some false
         | some true =>
           match cmpElems p.criteria a.criteria with
           | none => none
           | some b => some b) := rfl

/-! ## Claim C6 -/

/-- C6: for every pair of `ComputerGroup`s whose `computers` or `criteria`
lists contain identical elements but in a different order, the predicate
`AreGroupsEquivalent` judges them non-equivalent — the element comparison
is positional, index by index, not set-based.  The permutation hypotheses
state that the lists hold identical elements; the inequality states that at
least one pair of lists is in a genuinely different order. -/
theorem C6_positional_not_set (p a : ComputerGroup)
    (hc : p.computers.Perm a.computers) (hr : p.criteria.Perm a.criteria)
    (hne : p.computers ≠ a.computers ∨ p.criteria ≠ a.criteria) :
    AreGroupsEquivalent p (some a) = some false := by
  have lc := hc.length_eq
  have lr := hr.length_eq
  rw [AreGroupsEquivalent_some]
  by_cases hn : p.name = a.name
  · by_cases hid : p.id = a.id
    · rw [cmpElems_of_length_eq _ _ lc, cmpElems_of_length_eq _ _ lr]
      by_cases hcc : p.computers = a.computers
      · have hrc : p.criteria ≠ a.criteria := by tauto
        simp [hn, hid, hcc, hrc]
      · simp [hn, hid, hcc]
    · simp [hn, hid]
  · simp [hn]

/-- Witness for C6 at a concrete pair: the same two computers listed in
opposite orders are judged non-equivalent. -/
theorem C6_witness :
    AreGroupsEquivalent exGroup12 (some exGroup21) = some false :=
  C6_positional_not_set exGroup12 exGroup21 (by decide) (by decide) (by decide)

/-! ## Claim C10 -/

/-- C10: `AreGroupsEquivalent` ignores elements of the observed group beyond
the length of the planned group's lists — whenever name and id match and the
planned group's `computers` and `criteria` lists are (possibly proper)
prefixes of the observed group's lists the predicate returns true — and
consequently it is not symmetric in its two arguments. -/
theorem C10_prefix_ignores_tail :
    (∀ p a : ComputerGroup, p.name = a.name → p.id = a.id →
      p.computers <+: a.computers → p.criteria <+: a.criteria →
      AreGroupsEquivalent p (some a) = some true) ∧
    (∃ p a : ComputerGroup, AreGroupsEquivalent p (some a) = some true ∧
      AreGroupsEquivalent a (some p) ≠ some true) := by
  constructor
  · intro p a hn hi hc hr
    have h1 := (cmpElems_eq_some_true_iff p.computers a.computers).mpr hc
    have h2 := (cmpElems_eq_some_true_iff p.criteria a.criteria).mpr hr
    rw [AreGroupsEquivalent_some]
    simp [hn, hi, h1, h2]
  · exact ⟨exGroupNil, exGroup1, by decide, by decide⟩

/-- Witness for C10 at a concrete pair: the empty planned group is judged
equivalent to an observed group with one extra member. -/
theorem C10_witness :
    AreGroupsEquivalent exGroupNil (some exGroup1) = some true :=
  C10_prefix_ignores_tail.1 exGroupNil exGroup1 rfl rfl
    ⟨[exComputer1], rfl⟩ ⟨[], rfl⟩

/-! ## Claim C8 -/

/-- Counterexample to C8 as stated: the planned group's list being strictly
longer than the observed group's (with name and id matching) does not by
itself reach the out-of-range access.  Here the lists disagree at index 0,
so the Go loop returns false from the comparison before the index can run
off the end of the observed list: the result is `some false`, not the panic
branch `none`. -/
theorem C8_counterexample :
    exGroup2.computers.length < exGroup12.computers.length ∧
    exGroup12.name = exGroup2.name ∧ exGroup12.id = exGroup2.id ∧
    AreGroupsEquivalent exGroup12 (some exGroup2) = some false ∧
    AreGroupsEquivalent exGroup12 (some exGroup2) ≠ none := by
  refine ⟨by decide, by decide, by decide, ?_, ?_⟩ <;> decide

/-- C8 (amended): `AreGroupsEquivalent` is not total — it indexes the
observed group's lists without first comparing lengths, so whenever name
and id match and the observed group's `computers` list is a proper prefix
of the planned group's `computers` list (so that every compared position
agrees until the observed list runs out), the access is out of range: the
panic branch `none` of the embedding is reached. -/
theorem C8_out_of_range (p a : ComputerGroup)
    (hn : p.name = a.name) (hi : p.id = a.id)
    (hpre : a.computers <+: p.computers) (hne : a.computers ≠ p.computers) :
    AreGroupsEquivalent p (some a) = none := by
  have h1 := (cmpElems_eq_none_iff p.computers a.computers).mpr ⟨hpre, hne⟩
  rw [AreGroupsEquivalent_some]
  simp [hn, hi, h1]

/-- Witness for C8 at a concrete pair: observing a strict prefix of the
planned membership panics. -/
theorem C8_witness : AreGroupsEquivalent exGroup12 (some exGroup1) = none :=
  C8_out_of_range exGroup12 exGroup1 rfl rfl
    ⟨[exComputer2], rfl⟩ (by decide)

/-! ## Claim C1 -/

/-- The intended group of the C1 counterexample. -/
def c1Intended : ComputerGroup :=
  { id := 1, name := "intended", isSmart := false, criteria := [], computers := [] }

/-- An observed group that differs from `c1Intended` in its name. -/
def c1Observed : ComputerGroup :=
  { id := 1, name := "observed", isSmart := false, criteria := [], computers := [] }

/-- A fetch stub whose every call returns HTTP 200 with a non-equivalent
observed group. -/
def c1Fetch : Nat → Nat × Option ComputerGroup := fun _ => (200, some c1Observed)

/-- Counterexample to C1 as stated: the create/update poller stops after a
single fetch that returned HTTP 200 even though the equivalence predicate
does not hold there, so the loop does not terminate "only when a fetch has
returned HTTP 200 AND the equivalence predicate holds" — the Go condition
`resp.StatusCode != 200 && !equivalent(...)` makes the exit a disjunction. -/
theorem C1_counterexample :
    groupReconPoll c1Intended c1Fetch 9 = PollOutcome.done 1 [] ∧
    AreGroupsEquivalent c1Intended (c1Fetch 0).2 = some false := by
  constructor <;> decide

/-- A fetch stub for the C1 witness: the first call misses (HTTP 500), the
second returns HTTP 200. -/
def c1WitnessFetch : Nat → Nat × Option ComputerGroup :=
  fun n => if n = 0 then (500, none) else (200, none)

/-- C1 (amended): for every create or update mutation followed by
reconciliation, the polling loop terminates at the first fetch that
returned HTTP 200 OR whose observation satisfies the equivalence predicate
(it keeps polling only while the status differs from 200 AND the predicate
fails); on every iteration where that disjunction does not yet hold the
poller sleeps and re-fetches with the delay doubling each attempt
(1s, 2s, 4s, ...).  The first conjunct proves the group poller terminates
at the first such fetch with the doubling sleep schedule, the second that
any termination happens only at such a first fetch, and the third is the
same termination property for the computer-record poller. -/
theorem C1_loop_exit_disjunction :
    (∀ (intended : ComputerGroup) (fetch : Nat → Nat × Option ComputerGroup)
       (m fuel : Nat), m ≤ fuel →
      (∀ j, j < m → (fetch j).1 ≠ 200 ∧
        AreGroupsEquivalent intended (fetch j).2 = some false) →
      ((fetch m).1 = 200 ∨ AreGroupsEquivalent intended (fetch m).2 = some true) →
      groupReconPoll intended fetch fuel =
        PollOutcome.done (m + 1) ((List.range m).map (fun k => 2 ^ k))) ∧
    (∀ (intended : ComputerGroup) (fetch : Nat → Nat × Option ComputerGroup)
       (fuel n : Nat) (s : List Nat),
      groupReconPoll intended fetch fuel = PollOutcome.done n s →
      ∃ m, n = m + 1 ∧
        ((fetch m).1 = 200 ∨ AreGroupsEquivalent intended (fetch m).2 = some true) ∧
        ∀ j, j < m → (fetch j).1 ≠ 200 ∧
          AreGroupsEquivalent intended (fetch j).2 = some false) ∧
    (∀ (intended : Computer) (fetch : Nat → Nat × Option Computer)
       (m fuel : Nat), m ≤ fuel →
      (∀ j, j < m → (fetch j).1 ≠ 200 ∧
        AreComputerRecordsEquivalent intended (fetch j).2 = false) →
      ((fetch m).1 = 200 ∨ AreComputerRecordsEquivalent intended (fetch m).2 = true) →
      computerReconPoll intended fetch fuel =
        PollOutcome.done (m + 1) ((List.range m).map (fun k => 2 ^ k))) := by
  refine ⟨?_, ?_, ?_⟩
  · intro intended fetch m fuel hm hb he
    have h := reconPollAux_done_of (AreGroupsEquivalent intended) fetch m fuel 0 1 []
      hm
      (fun j hj => (pollExit_eq_some_false_iff _ _).mpr (by simpa using hb j hj))
      ((pollExit_eq_some_true_iff _ _).mpr (by simpa using he))
    simpa [groupReconPoll, one_mul] using h
  · intro intended fetch fuel n s h
    obtain ⟨m, hn, hb, he⟩ :=
      reconPollAux_done_inv (AreGroupsEquivalent intended) fetch fuel 0 1 [] n s h
    refine ⟨m, by omega, ?_, ?_⟩
    · have := (pollExit_eq_some_true_iff (AreGroupsEquivalent intended) (fetch m)).mp
        (by simpa using he)
      simpa using this
    · intro j hj
      have := (pollExit_eq_some_false_iff (AreGroupsEquivalent intended) (fetch j)).mp
        (by simpa using hb j hj)
      simpa using this
  · intro intended fetch m fuel hm hb he
    have h := reconPollAux_done_of
      (fun o => some (AreComputerRecordsEquivalent intended o)) fetch m fuel 0 1 []
      hm
      (fun j hj => (pollExit_eq_some_false_iff _ _).mpr
        (by simpa using hb j hj))
      ((pollExit_eq_some_true_iff _ _).mpr (by simpa using he))
    simpa [computerReconPoll, one_mul] using h

/-- Witness for C1 at a concrete trace: miss on the first call, hit on the
second; the poller makes exactly 2 fetches and sleeps once, for 1 second. -/
theorem C1_witness :
    groupReconPoll c1Intended c1WitnessFetch 5 =
      PollOutcome.done 2 ((List.range 1).map (fun k => 2 ^ k)) :=
  C1_loop_exit_disjunction.1 c1Intended c1WitnessFetch 1 5 (by omega)
    (fun j hj => by
      have hj0 : j = 0 := by omega
      subst hj0
      exact ⟨by decide, rfl⟩)
    (Or.inl (by decide))

/-! ## Claim C2 -/

/-- The exhaustion error built by `ComputersServiceOp.Delete`. -/
def deleteExhaustionError (i : Int) : String :=
  "failed to delete computer with id " ++ toString i ++ " after 5 attempts"

/-- Counterexample to C2 as stated: under a fetch stub that never reports
404 the delete reconciliation makes 6 fetch calls (one initial fetch plus
the 5 loop retries), not the claimed 5, before failing with the exhaustion
error. -/
theorem C2_counterexample :
    (ComputersDeleteRecon 7 (fun _ => 200)).2 = 6 ∧
    (ComputersDeleteRecon 7 (fun _ => 200)).2 ≠ 5 ∧
    (ComputersDeleteRecon 7 (fun _ => 200)).1 =
      Except.error (deleteExhaustionError 7) := by
  refine ⟨by decide, by decide, ?_⟩
  rfl

/-- C2 (amended): the post-deletion reconciliation of `Computers.Delete`
calls fetchById once and then retries at most 5 more times, so its fetch
budget is 6 calls, not 5; it terminates early (successfully) as soon as a
fetch before the final retry reports 404; when all 5 retries are consumed
it fails with the dedicated error naming the resource id and the 5-attempt
count — even when the final (6th) fetch itself reported 404.  A stub that
never reports 404 sees exactly 6 fetch calls; a stub reporting 404 on the
2nd call sees exactly 2 calls and succeeds. -/
theorem C2_delete_budget :
    (∀ (i : Int) (fetch : Nat → Nat), (∀ k, fetch k ≠ 404) →
      ComputersDeleteRecon i fetch =
        (Except.error (deleteExhaustionError i), 6)) ∧
    (∀ (i : Int) (fetch : Nat → Nat), fetch 0 ≠ 404 → fetch 1 = 404 →
      ComputersDeleteRecon i fetch = (Except.ok (), 2)) ∧
    (∀ (i : Int) (fetch : Nat → Nat), (∀ k, k < 5 → fetch k ≠ 404) →
      fetch 5 = 404 →
      ComputersDeleteRecon i fetch =
        (Except.error (deleteExhaustionError i), 6)) := by
  refine ⟨?_, ?_, ?_⟩
  · intro i fetch h
    simp only [ComputersDeleteRecon, deleteExhaustionError]
    rw [computersDeleteLoop_never fetch h 5 (fetch 0) 1 (h 0)]
    norm_num
  · intro i fetch h0 h1
    simp only [ComputersDeleteRecon]
    rw [computersDeleteLoop_first_hit fetch 0 5 (fetch 0) 1 (by omega) h0
      (fun j hj => absurd hj (by omega))
      (by simpa using h1)]
    norm_num
  · intro i fetch h h5
    simp only [ComputersDeleteRecon, deleteExhaustionError]
    rw [computersDeleteLoop_first_hit fetch 4 5 (fetch 0) 1 (by omega)
      (h 0 (by omega))
      (fun j hj => h (1 + j) (by omega))
      (by simpa using h5)]
    norm_num

/-- A fetch stub for the C2 witness: 404 appears on the second call. -/
def c2WitnessFetch : Nat → Nat := fun n => if n = 0 then 200 else 404

/-- Witness for C2 at a concrete trace: 404 on the 2nd call gives exactly
2 fetches and success. -/
theorem C2_witness : ComputersDeleteRecon 3 c2WitnessFetch = (Except.ok (), 2) :=
  C2_delete_budget.2.1 3 c2WitnessFetch (by decide) (by decide)

/-! ## Claim C4 -/

/-- C4: for every HTTP status code from 100 to 599, `CheckResponse`
returns success (no error) exactly when the code is between 200 and 299
inclusive; for every other code it returns an error envelope whose message
is the raw response body text (empty when the body is absent), and
`Client.Do` then surfaces that envelope with no decoding attempted — the
result is the same for every decoder, including none at all. -/
theorem C4_status_classification (code : Nat) (body : Option String)
    (h1 : 100 ≤ code) (h2 : code ≤ 599) :
    (CheckResponse { statusCode := code, body := body } = none ↔
      200 ≤ code ∧ code ≤ 299) ∧
    (¬(200 ≤ code ∧ code ≤ 299) →
      CheckResponse { statusCode := code, body := body } =
        some { statusCode := code, message := body.getD "" } ∧
      ∀ (d : Option (String → Option String)),
        clientDo { statusCode := code, body := body } d =
          DoResult.httpError { statusCode := code, message := body.getD "" }) := by
  by_cases h : 200 ≤ code ∧ code ≤ 299
  · constructor
    · simp [CheckResponse, h]
    · intro hc; exact absurd h hc
  · have hck : CheckResponse { statusCode := code, body := body } =
        some { statusCode := code, message := body.getD "" } := by
      simp only [CheckResponse, if_neg h]
      rw [checkResponse_message_eq]
    constructor
    · simp [hck, h]
    · intro _
      refine ⟨hck, ?_⟩
      intro d
      simp [clientDo, hck]

/-- Witness for C4 at a concrete response: a 404 with body text is
classified as the error envelope carrying that text verbatim. -/
theorem C4_witness :
    CheckResponse { statusCode := 404, body := some "nope" } =
      some { statusCode := 404, message := "nope" } :=
  ((C4_status_classification 404 (some "nope") (by decide) (by decide)).2
    (by decide)).1

/-! ## Claim C7 -/

/-- Counterexample to C7 as stated: `ComputerGroupsServiceOp.Update` is a
public update operation, yet with the sentinel zero identifier (and a
non-nil payload) it does not return an argument error — it proceeds to
build the request for path JSSResource/computergroups/id/0. -/
theorem C7_counterexample :
    computerGroupsUpdatePre 0 true =
      MutationPre.proceeds "JSSResource/computergroups/id/0" ∧
    ∀ f r, computerGroupsUpdatePre 0 true ≠ MutationPre.argError f r := by
  constructor
  · decide
  · intro f r h
    rw [show computerGroupsUpdatePre 0 true =
        MutationPre.proceeds "JSSResource/computergroups/id/0" by decide] at h
    exact MutationPre.noConfusion h

/-- C7 (amended): every public mutation operation returns an argument error
before any network call when the required request payload is nil; of the
update operations, `Computers.Update` and `Categories.Update` also return
an argument error when the identifier is the sentinel zero value, but
`ComputerGroups.Update` performs no identifier check and proceeds to the
network call even with identifier 0. -/
theorem C7_argument_validation :
    ∀ i : Int,
      computersUpdatePre i false =
        MutationPre.argError "updateRequest" "cannot be nil" ∧
      categoriesUpdatePre i false =
        MutationPre.argError "updateRequest" "cannot be nil" ∧
      computerGroupsUpdatePre i false =
        MutationPre.argError "createRequest" "cannot be nil" ∧
      computersCreatePre false =
        MutationPre.argError "createRequest" "cannot be nil" ∧
      computerGroupsCreatePre false =
        MutationPre.argError "createRequest" "cannot be nil" ∧
      categoriesCreatePre false =
        MutationPre.argError "createRequest" "cannot be nil" ∧
      computersUpdatePre 0 true =
        MutationPre.argError "computer ID" "cannot be 0" ∧
      categoriesUpdatePre 0 true =
        MutationPre.argError "category ID" "cannot be 0" ∧
      computerGroupsUpdatePre 0 true =
        MutationPre.proceeds "JSSResource/computergroups/id/0" := by
  intro i
  refine ⟨?_, ?_, ?_, by decide, by decide, by decide, by decide, by decide,
    by decide⟩ <;> simp [computersUpdatePre, categoriesUpdatePre, computerGroupsUpdatePre]

/-! ## Claim C3 -/

/-- A session whose stored token has expired: expiry 5 is not after time 10. -/
def c3StaleState : ClientState :=
  { token := some "stale", tokenExpiration := some 5
    jamfProIngress := "", apBalanceId := "" }

/-- Counterexample to C3 as stated: from a session whose stored expiry (5)
is strictly in the past at time 10, `NewRequest` still builds a request
carrying the stale bearer token.  `newRequest` contains no call to the
refresher — `refreshAuthToken` is invoked only from `NewClient` at
construction — so no credential refresh occurs before the request is built
and sent, contradicting the claimed invariant. -/
theorem C3_counterexample :
    c3StaleState.tokenExpiration = some 5 ∧ ¬((5 : Int) > 10) ∧
    ∃ r, newRequest c3StaleState "GET" "JSSResource/computers" "application/json"
        false = some r ∧ r.authorization = "Bearer stale" := by
  refine ⟨rfl, by decide, ?_⟩
  refine ⟨{ method := "GET", path := "JSSResource/computers", hasBody := false
            contentTypeHeader := none, accept := some "application/json"
            cookie := none, authorization := "Bearer stale" }, ?_, rfl⟩
  decide

/-- A session with a still-valid token, for the C3 witness. -/
def c3FreshState : ClientState :=
  { token := some "tok", tokenExpiration := some 5
    jamfProIngress := "", apBalanceId := "" }

/-- C3 (amended): the bearer credential is obtained once, at client
construction; `refreshAuthToken` is a no-op (no state change, no error)
whenever the stored expiry is strictly in the future, and `NewRequest`
performs no validity check and triggers no refresh — it attaches whatever
token the session stores to every request it builds, regardless of the
stored expiry. -/
theorem C3_no_refresh_on_request_path :
    (∀ (now e : Int) (st : ClientState)
       (tr : Option (List (String × String) × Option OAuthDecoded)),
      st.tokenExpiration = some e → e > now →
      refreshAuthToken now st tr = some (st, false)) ∧
    (∀ (st : ClientState) (t method path ct : String) (b : Bool),
      st.token = some t →
      ∃ r, newRequest st method path ct b = some r ∧
        r.authorization = "Bearer " ++ t) := by
  constructor
  · intro now e st tr hexp hgt
    unfold refreshAuthToken
    rw [hexp]
    simp [hgt]
  · intro st t method path ct b htok
    unfold newRequest
    rw [htok]
    exact ⟨_, rfl, rfl⟩

/-- Witness for C3: at time 0 a token expiring at time 5 is reused with no
refresh, and the request built from that session carries it. -/
theorem C3_witness :
    refreshAuthToken 0 c3FreshState none = some (c3FreshState, false) ∧
    ∃ r, newRequest c3FreshState "GET" "uapi/v1/buildings" "application/json"
        false = some r ∧ r.authorization = "Bearer " ++ "tok" :=
  ⟨C3_no_refresh_on_request_path.1 0 5 c3FreshState none rfl (by decide),
   C3_no_refresh_on_request_path.2 c3FreshState "tok" "GET" "uapi/v1/buildings"
     "application/json" false rfl⟩

/-! ## Claim C9 -/

/-- C9: request building dereferences the session token unconditionally,
while a credential refresh whose response body fails to decode returns no
error yet leaves the token unset; from any state due for a refresh, a
refresh with an undecodable body (`decoded = none`) succeeds silently and
leaves a session on which every subsequent `NewRequest` call hits the
nil-token dereference — the panic branch `none` — instead of returning an
error. -/
theorem C9_nil_token_dereference (st : ClientState) (now : Int)
    (cookies : List (String × String))
    (hexp : st.tokenExpiration = none ∨
      ∃ e, st.tokenExpiration = some e ∧ ¬e > now) :
    ∃ st2, refreshAuthToken now st (some (cookies, none)) = some (st2, false) ∧
      st2.token = none ∧
      ∀ (method path ct : String) (b : Bool),
        newRequest st2 method path ct b = none := by
  have htk : (captureCookies cookies { st with token := none }).token = none := by
    rw [captureCookies_token]
  refine ⟨captureCookies cookies { st with token := none }, ?_, htk, ?_⟩
  · obtain h | ⟨e, he, hng⟩ := hexp
    · simp [refreshAuthToken, h, refreshFetch]
    · simp [refreshAuthToken, he, hng, refreshFetch]
  · intro method path ct b
    simp [newRequest, htk]

/-- A session due for refresh: token present but expiry 5 already passed
at time 10. -/
def c9State : ClientState :=
  { token := some "old", tokenExpiration := some 5
    jamfProIngress := "", apBalanceId := "" }

/-- Witness for C9 at a concrete session: an expired session refreshed
against an undecodable body reports no error, holds no token, and panics
in every subsequent request build. -/
theorem C9_witness :
    ∃ st2, refreshAuthToken 10 c9State (some ([], none)) = some (st2, false) ∧
      st2.token = none ∧
      ∀ (method path ct : String) (b : Bool),
        newRequest st2 method path ct b = none :=
  C9_nil_token_dereference c9State 10 []
    (Or.inr ⟨5, rfl, by decide⟩)

/-! ## Claim C5 -/

/-- Projections of a record update that touches only the token fields leave
the attached cookie unchanged. -/
theorem requestCookie_token_update (s : ClientState) (tk : Option String)
    (te : Option Int) :
    requestCookie { s with token := tk, tokenExpiration := te } =
      requestCookie s := rfl

theorem refreshFetch_requestCookie (now : Int) (st : ClientState)
    (tr : Option (List (String × String) × Option OAuthDecoded))
    (st2 : ClientState) (err : Bool)
    (h : refreshFetch now st tr = some (st2, err))
    (hing : st.jamfProIngress ≠ "") :
    requestCookie st2 = requestCookie st := by
  unfold refreshFetch at h
  cases tr with
  | none =>
    simp only [Option.some.injEq, Prod.mk.injEq] at h
    obtain ⟨h1, -⟩ := h
    rw [← h1]
  | some p =>
    obtain ⟨cookies, decoded⟩ := p
    have hcap := captureCookies_ingress_of_ne cookies st hing
    cases decoded with
    | none =>
      simp only [Option.some.injEq, Prod.mk.injEq] at h
      obtain ⟨h1, -⟩ := h
      rw [← h1]
      exact requestCookie_of_ingress_eq st _ hcap hing
    | some d =>
      cases hei : d.expiresIn with
      | none => simp [hei] at h
      | some e2 =>
        simp only [hei, Option.some.injEq, Prod.mk.injEq] at h
        obtain ⟨h1, -⟩ := h
        rw [← h1, requestCookie_token_update]
        exact requestCookie_of_ingress_eq st _ hcap hing

theorem refreshAuthToken_some_exp (now e : Int) (st : ClientState)
    (tr : Option (List (String × String) × Option OAuthDecoded))
    (hexp : st.tokenExpiration = some e) :
    refreshAuthToken now st tr =
      if e > now then some (st, false)
      else refreshFetch now { st with token := none } tr := by
  unfold refreshAuthToken
  rw [hexp]

theorem refreshAuthToken_none_exp (now : Int) (st : ClientState)
    (tr : Option (List (String × String) × Option OAuthDecoded))
    (hexp : st.tokenExpiration = none) :
    refreshAuthToken now st tr = refreshFetch now { st with token := none } tr := by
  unfold refreshAuthToken
  rw [hexp]

/-- A blank session before any affinity cookie has been seen. -/
def c5Blank : ClientState :=
  { token := none, tokenExpiration := none, jamfProIngress := "", apBalanceId := "" }

/-- First identity-endpoint exchange of the C5 counterexample: the response
carries an APBALANCEID affinity cookie. -/
def c5Exchange1 : Option (List (String × String) × Option OAuthDecoded) :=
  some ([("APBALANCEID", "A")],
    some { accessToken := some "t1", expiresIn := some 100 })

/-- Second exchange: a later response carries a jpro-ingress cookie. -/
def c5Exchange2 : Option (List (String × String) × Option OAuthDecoded) :=
  some ([("jpro-ingress", "J")],
    some { accessToken := some "t2", expiresIn := some 100 })

/-- Session after the first exchange at time 0. -/
def c5State1 : ClientState :=
  ((refreshAuthToken 0 c5Blank c5Exchange1).getD (c5Blank, true)).1

/-- Session after the second exchange at time 200 (the first token, with
lifetime 100, has expired, so the refresh really runs). -/
def c5State2 : ClientState :=
  ((refreshAuthToken 200 c5State1 c5Exchange2).getD (c5Blank, true)).1

/-- Counterexample to C5 as stated: the affinity token "A" recorded from
the first response is attached to requests, yet after a later response
carrying a jpro-ingress cookie the requests switch to "J" — the recorded
APBALANCEID value is not overwritten, but the effective affinity value
attached to requests changes after it was established, and "A" no longer
appears on subsequently built requests. -/
theorem C5_counterexample :
    requestCookie c5State1 = some ("APBALANCEID", "A") ∧
    c5State2.apBalanceId = "A" ∧
    requestCookie c5State2 = some ("jpro-ingress", "J") := by
  refine ⟨?_, ?_, ?_⟩ <;> decide

/-- C5 (amended): each of the two affinity fields is set at most once —
cookie capture never overwrites a non-empty jpro-ingress or APBALANCEID
field — and requests attach the jpro-ingress value when it is set, else the
APBALANCEID value; consequently once the jpro-ingress token is recorded the
cookie attached to every subsequently built request never changes, through
any further cookie capture and any full credential refresh.  (An affinity
established only via APBALANCEID can still be superseded once, when a later
response records a jpro-ingress token, as the counterexample shows.) -/
theorem C5_affinity_pinning :
    ∀ (st : ClientState) (cookies : List (String × String)),
      (st.jamfProIngress ≠ "" →
        (captureCookies cookies st).jamfProIngress = st.jamfProIngress ∧
        requestCookie (captureCookies cookies st) = requestCookie st) ∧
      (st.apBalanceId ≠ "" →
        (captureCookies cookies st).apBalanceId = st.apBalanceId) ∧
      (∀ (now : Int) (tr : Option (List (String × String) × Option OAuthDecoded))
         (st2 : ClientState) (err : Bool),
        refreshAuthToken now st tr = some (st2, err) → st.jamfProIngress ≠ "" →
        requestCookie st2 = requestCookie st) := by
  intro st cookies
  refine ⟨?_, ?_, ?_⟩
  · intro h
    have hcap := captureCookies_ingress_of_ne cookies st h
    exact ⟨hcap, requestCookie_of_ingress_eq st _ hcap h⟩
  · intro h
    exact captureCookies_balance_of_ne cookies st h
  · intro now tr st2 err href hing
    cases hexp : st.tokenExpiration with
    | some e =>
      rw [refreshAuthToken_some_exp now e st tr hexp] at href
      by_cases hgt : e > now
      · rw [if_pos hgt] at href
        simp only [Option.some.injEq, Prod.mk.injEq] at href
        obtain ⟨h1, -⟩ := href
        rw [← h1]
      · rw [if_neg hgt] at href
        exact refreshFetch_requestCookie now { st with token := none } tr st2 err
          href hing
    | none =>
      rw [refreshAuthToken_none_exp now st tr hexp] at href
      exact refreshFetch_requestCookie now { st with token := none } tr st2 err
        href hing

/-- A session that has already pinned the jpro-ingress affinity token. -/
def c5Pinned : ClientState :=
  { token := none, tokenExpiration := none, jamfProIngress := "J", apBalanceId := "" }

/-- Witness for C5 at a concrete session: once jpro-ingress is pinned, a
later APBALANCEID cookie leaves the attached request cookie unchanged. -/
theorem C5_witness :
    requestCookie (captureCookies [("APBALANCEID", "B")] c5Pinned) =
      requestCookie c5Pinned :=
  ((C5_affinity_pinning c5Pinned [("APBALANCEID", "B")]).1 (by decide)).2

end JamfPro
